import Mathlib

/-!
Verification of the CommontestKen helper library (two bundled source variants:
`Commontests.js`, a chakram-style variant, and the Postman-style variant in the
second source file).  JavaScript values are shallowly embedded as an inductive
`JSValue`; JS numbers are modelled as `Int` (all claims concern integer status
codes, times and indices).  Each assertion function is translated into a pure
function from the host state and its argument to a `RunResult`: the list of
named test outcomes it registers with the host runner (in registration order),
the number of `setNextRequest(null)` abort calls, and the validation error it
raises, if any.  Effects that happen before a throw are recorded before the
error, matching JS evaluation order.
-/

/-- Runtime JavaScript values, by runtime kind.  Numbers are modelled as `Int`
(no NaN/decimals: every claim is about integer inputs); `errv` stands for an
`Error` object; object fields are an association list. -/
inductive JSValue where
  | num (n : Int)
  | str (s : String)
  | boolv (b : Bool)
  | null
  | undefined
  | errv
  | arr (xs : List JSValue)
  | obj (fields : List (String × JSValue))

/-- The `getType` helper of the Postman variant: `Object.prototype.toString.call(value)`
with the `[object ...]` wrapper stripped. -/
def getType : JSValue → String
  | .num _ => "Number"
  | .str _ => "String"
  | .boolv _ => "Boolean"
  | .null => "Null"
  | .undefined => "Undefined"
  | .errv => "Error"
  | .arr _ => "Array"
  | .obj _ => "Object"

/-- JavaScript `typeof` (used by the chakram variant's checks); note
`typeof null`, `typeof []` and `typeof (new Error())` are all `"object"`. -/
def jsTypeof : JSValue → String
  | .num _ => "number"
  | .str _ => "string"
  | .boolv _ => "boolean"
  | .null => "object"
  | .undefined => "undefined"
  | .errv => "object"
  | .arr _ => "object"
  | .obj _ => "object"

/-- JavaScript truthiness of a value. -/
def truthy : JSValue → Bool
  | .num n => n != 0
  | .str s => s != ""
  | .boolv b => b
  | .null => false
  | .undefined => false
  | .errv => true
  | .arr _ => true
  | .obj _ => true

/-- JS `Number(string)` restricted to optional-sign integer literals: `""` is 0,
decimal integers parse, anything else is NaN (`none`).  (Decimal fractions,
hex and exponent forms are outside this integer model.) -/
def jsStringToNumber (s : String) : Option Int :=
  if s = "" then some 0
  else if s.startsWith "-" then ((s.drop 1).toNat?).map (fun n => -(n : Int))
  else if s.startsWith "+" then ((s.drop 1).toNat?).map (fun n => (n : Int))
  else (s.toNat?).map (fun n => (n : Int))

/-- JS `ToNumber` on our value model (`none` = NaN).  Arrays and objects go
through `ToPrimitive`; we model the common cases (`[] → 0`, `[n] → n`) and
abstract the rest as NaN. -/
def toNumberOpt : JSValue → Option Int
  | .num n => some n
  | .str s => jsStringToNumber s
  | .boolv b => some (if b then 1 else 0)
  | .null => some 0
  | .undefined => none
  | .errv => none
  | .arr [] => some 0
  | .arr [.num n] => some n
  | .arr _ => none
  | .obj _ => none

/-- JS `k <= v` for a numeric literal `k` on the left (NaN comparisons are false). -/
def jsLeL (k : Int) (v : JSValue) : Bool :=
  match toNumberOpt v with
  | some n => k ≤ n
  | none => false

/-- JS `v <= k` for a numeric literal `k` on the right. -/
def jsLeR (v : JSValue) (k : Int) : Bool :=
  match toNumberOpt v with
  | some n => n ≤ k
  | none => false

/-- JS `v > k` for a numeric literal `k` on the right. -/
def jsGt (v : JSValue) (k : Int) : Bool :=
  match toNumberOpt v with
  | some n => k < n
  | none => false

/-- JS `===`.  Primitives compare by value; objects, arrays and errors compare
by reference, which this sharing-free model renders as `false` (two separately
constructed composite values are never the same reference). -/
def jsStrictEq : JSValue → JSValue → Bool
  | .num a, .num b => a == b
  | .str a, .str b => a == b
  | .boolv a, .boolv b => a == b
  | .null, .null => true
  | .undefined, .undefined => true
  | _, _ => false

/-- JS string conversion used in string concatenation of descriptions. -/
def jsToString : JSValue → String
  | .num n => toString n
  | .str s => s
  | .boolv b => if b then "true" else "false"
  | .null => "null"
  | .undefined => "undefined"
  | .errv => "Error"
  | .arr _ => ""
  | .obj _ => "[object Object]"

/-- JS property access `v[p]`: throws TypeError on null/undefined, looks the key
up on objects, and yields `undefined` for a key absent or a non-object base. -/
def getProp : JSValue → String → Except String JSValue
  | .null, _ => .error "Cannot read properties of null"
  | .undefined, _ => .error "Cannot read properties of undefined"
  | .obj kvs, p => .ok ((kvs.lookup p).getD .undefined)
  | _, _ => .ok .undefined

/-- The two validation-error kinds of the library. -/
inductive JSError where
  | typeError (msg : String)
  | rangeError (msg : String)
deriving DecidableEq

/-- The deferred check a registered test outcome performs against the response.
Constructors carrying a `JSValue` keep the raw argument the source closes over. -/
inductive Assertion where
  | statusIs (v : JSValue)
  | timeBelow (t : Int)
  | typeEquals (v : JSValue)
  | contentTypeIncludes (ct : String)
  | headerIs (name : String) (value : JSValue)
  | schemaMatches (schema : JSValue)
  | flagTrue (b : Bool)
  | trivial

/-- One named test outcome registered with the host runner. -/
structure Outcome where
  descr : String
  check : Assertion

/-- Observable effects of one library call: registered outcomes in order, the
number of `setNextRequest(null)` calls, and the raised validation error if any
(effects recorded before the throw are kept). -/
structure RunResult where
  outcomes : List Outcome
  aborts : Nat
  error : Option JSError

/-- A `RunResult` with no effects and no error. -/
def RunResult.skip : RunResult := ⟨[], 0, none⟩

/-- A single registered outcome. -/
def RunResult.one (o : Outcome) : RunResult := ⟨[o], 0, none⟩

/-- A raised validation error (registering nothing). -/
def RunResult.raise (e : JSError) : RunResult := ⟨[], 0, some e⟩

/-- Sequential composition: if the first call threw, the second never runs. -/
def RunResult.andThen (r : RunResult) (k : Unit → RunResult) : RunResult :=
  match r.error with
  | some _ => r
  | none =>
    let r2 := k ()
    ⟨r.outcomes ++ r2.outcomes, r.aborts + r2.aborts, r2.error⟩

/-- The host state an invocation reads: the current response (status code,
elapsed time, chakram's `response.type`, headers, body text, parsed body) and
the external JSON-schema validation engine's verdict, error message and data
path for a given schema (§6 of the spec: external collaborators). -/
structure Host where
  code : Int
  time : Int
  typeStr : String
  header : String → Option String
  bodyText : String
  bodyJson : JSValue
  validateSchema : JSValue → Bool
  tv4errMessage : String
  tv4dataPath : String

/-- Whether a registered outcome's deferred check passes against a host state
(the assertion-library semantics: chai `below` is strict `<`, `have.status`
is equality, `include` is substring). -/
def evalAssertion (h : Host) : Assertion → Bool
  | .statusIs v => match v with | .num c => h.code == c | _ => false
  | .timeBelow t => h.time < t
  | .typeEquals v => jsStrictEq (.str h.typeStr) v
  | .contentTypeIncludes ct =>
      match h.header "Content-Type" with
      | some vl => (vl.splitOn ct).length > 1 || vl == ct
      | none => false
  | .headerIs name value =>
      match h.header name with
      | some s => jsStrictEq (.str s) value
      | none => false
  | .schemaMatches schema => h.validateSchema schema
  | .flagTrue b => b
  | .trivial => true

/-- JS number-to-string of `t / 1000` for an integer `t` (used by `convertTime`
when `t ≥ 1000`): the quotient, then the fractional part with trailing zeros
stripped, as JS prints the double `t / 1000`. -/
def fracDigits (r : Nat) : String :=
  if r % 10 ≠ 0 then (if r < 10 then "00" else if r < 100 then "0" else "") ++ toString r
  else if r % 100 ≠ 0 then (if r / 10 < 10 then "0" else "") ++ toString (r / 10)
  else toString (r / 100)

/-- The body of `convertTime` on an actual number:
`time >= 1000 ? time/1000 + 's' : time + 'ms'` with JS float division rendered
exactly (`1500/1000` prints `1.5`). -/
def convertTimeNum (t : Int) : String :=
  if t ≥ 1000 then
    toString (t / 1000) ++ (if t % 1000 = 0 then "" else "." ++ fracDigits (t % 1000).toNat) ++ "s"
  else toString t ++ "ms"

/-- The loop `findIndex(item => item[property] === value)` with JS property-access
exceptions surfaced (accessing a property of `null` throws). -/
def findIndexJS (p : String) (v : JSValue) : List JSValue → Int → Except String Int
  | [], _ => .ok (-1)
  | x :: xs, i =>
    match getProp x p with
    | .error m => .error m
    | .ok w => if jsStrictEq w v then .ok i else findIndexJS p v xs (i + 1)

/-- Schema for one `_links` entry: an (optionally nullable) object requiring an
`href` string matching the variant's URL pattern.  Shared between the two
source variants, which differ only in the URL pattern. -/
def halLinkSchema (urlPat : String) (nullable : Bool) : JSValue :=
  .obj [("type", if nullable then .arr [.str "object", .str "null"] else .str "object"),
        ("required", .arr [.str "href"]),
        ("properties", .obj [("href", .obj [("type", .str "string"), ("pattern", .str urlPat)])])]

/-- One `_page` numeric entry: `{"type": "number", "minimum": m, "multipleOf": 1}`. -/
def halPageEntry (m : Int) : JSValue :=
  .obj [("type", .str "number"), ("minimum", .num m), ("multipleOf", .num 1)]

/-- The HAL schema literal both variants return, parameterized by their three
differences: the URL pattern string, the `_links.required` list
(`self,next,previous,first,last` in `Commontests.js`; `self,first,last` in the
Postman variant) and the `_page.number` minimum (0 vs 1). -/
def halSchemaBody (urlPat : String) (linksRequired : List String) (numberMin : Int)
    (items : JSValue) : JSValue :=
  .obj [("type", .str "object"),
        ("required", .arr [.str "_links", .str "_embedded", .str "_page"]),
        ("properties", .obj [
          ("_links", .obj [
            ("type", .str "object"),
            ("required", .arr (linksRequired.map JSValue.str)),
            ("properties", .obj [
              ("self", halLinkSchema urlPat false),
              ("next", halLinkSchema urlPat true),
              ("previous", halLinkSchema urlPat true),
              ("first", halLinkSchema urlPat false),
              ("last", halLinkSchema urlPat false)])]),
          ("_embedded", .obj [
            ("type", .str "object"),
            ("required", .arr [.str "resourceList"]),
            ("properties", .obj [
              ("resourceList", .obj [("type", .str "array"), ("items", items)])])]),
          ("_page", .obj [
            ("type", .str "object"),
            ("required", .arr [.str "size", .str "number"]),
            ("properties", .obj [
              ("size", halPageEntry 0),
              ("totalElements", halPageEntry 0),
              ("totalPages", halPageEntry 0),
              ("number", halPageEntry numberMin)])])])]

/-- The `schemaResourceItems = {}` default parameter: an `undefined` argument
is replaced by the empty object. -/
def defaultItems (v : JSValue) : JSValue :=
  match v with
  | .undefined => .obj []
  | _ => v

/-- Property lookup on an object-shaped `JSValue` (plain association lookup,
no exceptions; used in theorem statements to inspect returned schemas). -/
def objLookup (v : JSValue) (k : String) : Option JSValue :=
  match v with
  | .obj kvs => kvs.lookup k
  | _ => none

/-- Iterated `objLookup` along a path of keys. -/
def pathLookup (v : JSValue) : List String → Option JSValue
  | [] => some v
  | k :: ks =>
    match objLookup v k with
    | some w => pathLookup w ks
    | none => none

/-! ## The `Commontests.js` (chakram-style) variant -/

namespace Chakram

def convertTimeMsg : String :=
  "Parameter value must be of type \"number\" for function \"convertTime(time)\""

/-- Function `convertTime` of `Commontests.js`: `typeof` check, then multiple conversion. -/
def convertTime (v : JSValue) : Except JSError String :=
  match v with
  | .num t => .ok (convertTimeNum t)
  | _ => .error (.typeError convertTimeMsg)

/-- Function `checkTime` of `Commontests.js`: `time > 0` (JS coercing comparison) gates
registration; the outcome description calls `convertTime(time)`, which throws
TypeError when the truthy-comparing argument is not a number. -/
def checkTime (_h : Host) (v : JSValue) : RunResult :=
  if jsGt v 0 then
    match v with
    | .num t => RunResult.one ⟨"should respond within " ++ convertTimeNum t, .timeBelow t⟩
    | _ => RunResult.raise (.typeError convertTimeMsg)
  else
    RunResult.raise (.rangeError
      "Parameter value must be a strictly positive number for function \"checkTime(time)\"")

def statusRangeMsg : String :=
  "Parameter value must be an existing status code number for function \"checkStatusCode(statusCode)\""

/-- Function `checkStatusCode` of `Commontests.js`: `switch (true)` over the five coercing
range comparisons, in source order; the default case throws RangeError. -/
def checkStatusCode (_h : Host) (v : JSValue) : RunResult :=
  if jsLeL 100 v && jsLeR v 199 then
    RunResult.one ⟨"should be an information response", .statusIs v⟩
  else if jsLeL 200 v && jsLeR v 299 then
    RunResult.one ⟨"should be a successful response", .statusIs v⟩
  else if jsLeL 300 v && jsLeR v 399 then
    RunResult.one ⟨"should be a redirection response", .statusIs v⟩
  else if jsLeL 400 v && jsLeR v 499 then
    RunResult.one ⟨"should be a client error response", .statusIs v⟩
  else if jsLeL 500 v && jsLeR v 599 then
    RunResult.one ⟨"should be a server error response", .statusIs v⟩
  else
    RunResult.raise (.rangeError statusRangeMsg)

/-- Function `checkContentType` of `Commontests.js`: no validation, one outcome always. -/
def checkContentType (_h : Host) (v : JSValue) : RunResult :=
  RunResult.one ⟨"should be of type \"" ++ jsToString v ++ "\"", .typeEquals v⟩

/-- Function `checkJSONSchema` of `Commontests.js`: `typeof jsonSchema == 'object'`
(so `null`, arrays and `Error` values pass the check). -/
def checkJSONSchema (_h : Host) (v : JSValue) : RunResult :=
  if jsTypeof v == "object" then
    RunResult.one ⟨"should match against the JSON schema", .schemaMatches v⟩
  else
    RunResult.raise (.typeError
      "Parameter value must be a JSON schema object for function \"checkJSONSchema(jsonSchema)\"")

/-- Function `checkLocation` of `Commontests.js`: no validation, one outcome always. -/
def checkLocation (_h : Host) (v : JSValue) : RunResult :=
  RunResult.one ⟨"should return the location \"" ++ jsToString v ++ "\"", .headerIs "Location" v⟩

/-- Function `logResponseBody` of `Commontests.js`: registers an extra trivial test
when the response body text is truthy. -/
def logResponseBody (h : Host) : RunResult :=
  if h.bodyText ≠ "" then RunResult.one ⟨"response body: " ++ h.bodyText, .trivial⟩
  else RunResult.skip

/-- Function `testCommon` of `Commontests.js`: logs the body, then runs each check
whenever its argument is truthy — no gating on the actual status. -/
def testCommon (h : Host) (statusCode contentType jsonSchema location : JSValue) : RunResult :=
  (logResponseBody h).andThen fun _ =>
  (if truthy statusCode then checkStatusCode h statusCode else RunResult.skip).andThen fun _ =>
  (if truthy contentType then checkContentType h contentType else RunResult.skip).andThen fun _ =>
  (if truthy jsonSchema then checkJSONSchema h jsonSchema else RunResult.skip).andThen fun _ =>
  (if truthy location then checkLocation h location else RunResult.skip)

def getIndexMsg : String :=
  "Parameter values must be of type \"Array.<Object>, string, any\" for function \"getIndexObjectInArray(array, property, value)\""

/-- Function `getIndexObjectInArray` of `Commontests.js`: validates with `Array.isArray`,
`typeof item === 'object'` on every element and `typeof property === 'string'`,
then `findIndex(item => item[property] === value)`. -/
def getIndexObjectInArray (array property value : JSValue) : Except JSError Int :=
  match array with
  | .arr xs =>
    match property with
    | .str p =>
      if xs.all (fun x => jsTypeof x == "object") then
        (findIndexJS p value xs 0).mapError JSError.typeError
      else .error (.typeError getIndexMsg)
    | _ => .error (.typeError getIndexMsg)
  | _ => .error (.typeError getIndexMsg)

/-- The GUID pattern string of `Commontests.js` (identical in both variants). -/
def getRegexGUID : String :=
  "^(?!00000000-0000-0000-0000-000000000000)([0-9a-zA-Z]\x7b8\x7d-[0-9a-zA-Z]\x7b4\x7d-[0-9a-zA-Z]\x7b4\x7d-[0-9a-zA-Z]\x7b4\x7d-[0-9a-zA-Z]\x7b12\x7d)$"

/-- The URL pattern string of `Commontests.js` (the dot is optional, no
`localhost` alternative). -/
def getRegexURL : String :=
  "^https?://[0-9a-zA-Z-]+\\.?[0-9a-zA-Z-]+"

/-- Function `getSchemaHAL` of `Commontests.js`: no type check, never throws; embeds the
(defaulted) argument as the resource-list items schema.  `_links` additionally
requires `next`/`previous`, and `_page.number` has minimum 0. -/
def getSchemaHAL (schemaResourceItems : JSValue) : JSValue :=
  halSchemaBody getRegexURL ["self", "next", "previous", "first", "last"] 0
    (defaultItems schemaResourceItems)

end Chakram

/-! ## The Postman-style variant (second source file) -/

namespace Pm

/-- Message `COMMON.TYPE_ERROR.MESSAGE` followed by the raising function's name (the
source recovers the name from the stack via `getFunctionNameFromInside`). -/
def typeErrMsg (fn : String) : String := "Wrong argument type for function " ++ fn

/-- Message `COMMON.RANGE_ERROR.MESSAGE` followed by the raising function's name. -/
def rangeErrMsg (fn : String) : String := "Argument out of range for function " ++ fn

/-- Function `convertTime` of the Postman variant: `getType` check, then conversion. -/
def convertTime (v : JSValue) : Except JSError String :=
  match v with
  | .num t => .ok (convertTimeNum t)
  | _ => .error (.typeError (typeErrMsg "convertTime"))

/-- Function `checkTime` of the Postman variant: `getType` check first (TypeError), then
strict positivity (RangeError), then one outcome asserting time strictly below. -/
def checkTime (_h : Host) (v : JSValue) : RunResult :=
  match v with
  | .num t =>
    if t > 0 then RunResult.one ⟨"Response Time < " ++ convertTimeNum t, .timeBelow t⟩
    else RunResult.raise (.rangeError (rangeErrMsg "checkTime"))
  | _ => RunResult.raise (.typeError (typeErrMsg "checkTime"))

/-- List `ERROR_CODES` of the Postman variant's `checkStatusCode`. -/
def ERROR_CODES : List Int := [503, 500, 502, 504, 401, 403]

/-- The `switch (true)` of the Postman `checkStatusCode`: the outcome
description by expected-code range, `none` for the RangeError default. -/
def statusDescr (c : Int) : Option String :=
  if 100 ≤ c ∧ c ≤ 199 then some "Status Code (Information)"
  else if 200 ≤ c ∧ c ≤ 299 then some "Status Code (Success)"
  else if 300 ≤ c ∧ c ≤ 399 then some "Status Code (Redirection)"
  else if 400 ≤ c ∧ c ≤ 499 then some "Status Code (Client Error)"
  else if 500 ≤ c ∧ c ≤ 599 then some "Status Code (Server Error)"
  else none

/-- Function `checkStatusCode` of the Postman variant: `getType` check, range switch,
one registered outcome, then `postman.setNextRequest(null)` when the actual
code differs from the expected one and is in `ERROR_CODES` (the loop breaks
after the first hit, so at most one call). -/
def checkStatusCode (h : Host) (v : JSValue) : RunResult :=
  match v with
  | .num c =>
    match statusDescr c with
    | some d =>
      ⟨[⟨d, .statusIs (.num c)⟩],
       if h.code ≠ c ∧ h.code ∈ ERROR_CODES then 1 else 0, none⟩
    | none => RunResult.raise (.rangeError (rangeErrMsg "checkStatusCode"))
  | _ => RunResult.raise (.typeError (typeErrMsg "checkStatusCode"))

/-- Function `checkContentType` of the Postman variant: `getType` check, then one
outcome asserting the Content-Type header exists and includes the argument. -/
def checkContentType (_h : Host) (v : JSValue) : RunResult :=
  match v with
  | .str ct => RunResult.one ⟨"Content Type", .contentTypeIncludes ct⟩
  | _ => RunResult.raise (.typeError (typeErrMsg "checkContentType"))

/-- Function `checkJSONSchema` of the Postman variant: `getType` check (only plain
objects pass), the tv4 verdict computed eagerly, the description carrying the
validator's message and data path on failure. -/
def checkJSONSchema (h : Host) (v : JSValue) : RunResult :=
  match v with
  | .obj kvs =>
    let valid := h.validateSchema (.obj kvs)
    let d := if valid then "JSON Schema"
             else "JSON Schema (" ++ h.tv4errMessage ++ " for data path " ++
                  (if h.tv4dataPath ≠ "" then h.tv4dataPath else "/") ++ ")"
    RunResult.one ⟨d, .flagTrue valid⟩
  | _ => RunResult.raise (.typeError (typeErrMsg "checkJSONSchema"))

/-- Function `checkLocation` of the Postman variant: `getType` check, then one outcome. -/
def checkLocation (_h : Host) (v : JSValue) : RunResult :=
  match v with
  | .str l => RunResult.one ⟨"Location", .headerIs "Location" (.str l)⟩
  | _ => RunResult.raise (.typeError (typeErrMsg "checkLocation"))

/-- Function `logResponseBody` of the Postman variant. -/
def logResponseBody (h : Host) : RunResult :=
  if h.bodyText ≠ "" then RunResult.one ⟨"Response Body: " ++ h.bodyText, .trivial⟩
  else RunResult.skip

/-- Function `testCommon` of the Postman variant: logs the body, runs the status check
when its argument is truthy, and gates the content-type/schema/location checks
on `pm.response.code === statusCode`. -/
def testCommon (h : Host) (statusCode contentType jsonSchema location : JSValue) : RunResult :=
  (logResponseBody h).andThen fun _ =>
  (if truthy statusCode then checkStatusCode h statusCode else RunResult.skip).andThen fun _ =>
  (if jsStrictEq (.num h.code) statusCode then
    (if truthy contentType then checkContentType h contentType else RunResult.skip).andThen fun _ =>
    (if truthy jsonSchema then checkJSONSchema h jsonSchema else RunResult.skip).andThen fun _ =>
    (if truthy location then checkLocation h location else RunResult.skip)
   else RunResult.skip)

/-- Function `getIndexObjectInArray` of the Postman variant: validates with
`Array.isArray`, `getType(item) === "Object"` on every element (so `null`,
arrays and `Error` values are rejected) and `getType(property) === "String"`. -/
def getIndexObjectInArray (array property value : JSValue) : Except JSError Int :=
  match array with
  | .arr xs =>
    match property with
    | .str p =>
      if xs.all (fun x => getType x == "Object") then
        (findIndexJS p value xs 0).mapError JSError.typeError
      else .error (.typeError (typeErrMsg "getIndexObjectInArray"))
    | _ => .error (.typeError (typeErrMsg "getIndexObjectInArray"))
  | _ => .error (.typeError (typeErrMsg "getIndexObjectInArray"))

/-- The GUID pattern string of the Postman variant (identical to
`Commontests.js`). -/
def getRegexGUID : String :=
  "^(?!00000000-0000-0000-0000-000000000000)([0-9a-zA-Z]\x7b8\x7d-[0-9a-zA-Z]\x7b4\x7d-[0-9a-zA-Z]\x7b4\x7d-[0-9a-zA-Z]\x7b4\x7d-[0-9a-zA-Z]\x7b12\x7d)$"

/-- The URL pattern string of the Postman variant (mandatory dot, plus an
unanchored `localhost` alternative). -/
def getRegexURL : String :=
  "^https?://[0-9a-zA-Z-]+\\.[0-9a-zA-Z-]+|https?://localhost"

/-- Function `getSchemaHAL` of the Postman variant: the `= {}` default applies first,
then the `getType` check throws TypeError for non-objects; `_links` requires
only `self`/`first`/`last`, and `_page.number` has minimum 1. -/
def getSchemaHAL (schemaResourceItems : JSValue) : Except JSError JSValue :=
  let s := defaultItems schemaResourceItems
  match s with
  | .obj kvs => .ok (halSchemaBody getRegexURL ["self", "first", "last"] 1 (.obj kvs))
  | _ => .error (.typeError (typeErrMsg "getSchemaHAL"))

end Pm

/-! ## A small regex fragment covering the library's pattern strings

The three pattern strings use only: literals, character classes with `+` or a
counted repetition, an optional single literal (`s?`, `\.?`), concatenation,
one top-level alternation, a leading `^`, an optional trailing `$` and one
negative lookahead on a fixed literal.  `printRx`/`printTop` reproduce the
exact source strings from the ASTs (proved by `rfl` below), and `mrem` gives
the matching semantics: the list of remainders after a match at the head of
the input. -/

namespace Rx

/-- The regex fragment: a literal, a character class repeated one-or-more or
exactly `n` times, an optional literal, and concatenation. -/
inductive Regex where
  | lit (s : String)
  | clsPlus (ranges : List (Char × Char))
  | clsRep (ranges : List (Char × Char)) (n : Nat)
  | optLit (s : String)
  | seq (a b : Regex)

/-- Character-class membership (a singleton range denotes a plain character). -/
def inCls (ranges : List (Char × Char)) (c : Char) : Bool :=
  ranges.any (fun r => r.1 ≤ c ∧ c ≤ r.2)

/-- All remainders after consuming one or more `p`-characters from the head. -/
def clsSplits (p : Char → Bool) : List Char → List (List Char)
  | [] => []
  | c :: cs => if p c then cs :: clsSplits p cs else []

/-- The remainder after consuming exactly `n` `p`-characters, if possible. -/
def clsRepRem (p : Char → Bool) : Nat → List Char → Option (List Char)
  | 0, cs => some cs
  | _ + 1, [] => none
  | n + 1, c :: cs => if p c then clsRepRem p n cs else none

/-- All remainders after matching `r` at the head of the input. -/
def mrem : Regex → List Char → List (List Char)
  | .lit s, cs => if s.toList.isPrefixOf cs then [cs.drop s.toList.length] else []
  | .clsPlus rs, cs => clsSplits (inCls rs) cs
  | .clsRep rs n, cs => (clsRepRem (inCls rs) n cs).toList
  | .optLit s, cs => (if s.toList.isPrefixOf cs then [cs.drop s.toList.length] else []) ++ [cs]
  | .seq a b, cs => (mrem a cs).flatMap (mrem b)

/-- Whether `r` matches some prefix of `cs`. -/
def matchedAt (r : Regex) (cs : List Char) : Bool := !(mrem r cs).isEmpty

/-- Top-level pattern shapes used by the library: `^(?!z)(body)$`, `^body`,
and `^a|b` (where, as in JS, the `^` binds only to the first alternative, so
the second is unanchored). -/
inductive TopPattern where
  | anchoredFull (neg : String) (body : Regex)
  | anchoredStart (body : Regex)
  | anchoredAltFloating (a b : Regex)

/-- Semantics of `RegExp.test` for the supported top-level shapes: an anchored
full pattern matches only at index 0 and must consume the whole string after
the negative lookahead holds there; an anchored start pattern must match some
prefix; in `^a|b` the unanchored second alternative may match at any index. -/
def rtest : TopPattern → String → Bool
  | .anchoredFull z body, s =>
      !(z.toList.isPrefixOf s.toList) && (mrem body s.toList).contains []
  | .anchoredStart body, s => matchedAt body s.toList
  | .anchoredAltFloating a b, s =>
      matchedAt a s.toList || s.toList.tails.any (fun t => matchedAt b t)

/-- Escape of a literal character in a pattern (only `.` occurs escaped). -/
def escChar (c : Char) : String :=
  if c = '.' then "\\." else String.singleton c

/-- A literal as it appears in the pattern source. -/
def escLit (s : String) : String := String.join (s.toList.map escChar)

/-- A character class as it appears in the pattern source. -/
def printCls (ranges : List (Char × Char)) : String :=
  "[" ++ String.join (ranges.map (fun r =>
    if r.1 = r.2 then String.singleton r.1
    else String.singleton r.1 ++ "-" ++ String.singleton r.2)) ++ "]"

/-- Print the regex fragment back to pattern-source syntax. -/
def printRx : Regex → String
  | .lit s => escLit s
  | .clsPlus rs => printCls rs ++ "+"
  | .clsRep rs n => printCls rs ++ "\x7b" ++ toString n ++ "\x7d"
  | .optLit s => escLit s ++ "?"
  | .seq a b => printRx a ++ printRx b

/-- Print a top-level pattern back to pattern-source syntax. -/
def printTop : TopPattern → String
  | .anchoredFull z body => "^(?!" ++ z ++ ")(" ++ printRx body ++ ")$"
  | .anchoredStart body => "^" ++ printRx body
  | .anchoredAltFloating a b => "^" ++ printRx a ++ "|" ++ printRx b

end Rx

/-- Class `[0-9a-zA-Z]` — note: alphanumeric, not hexadecimal. -/
def alnumCls : List (Char × Char) := [('0', '9'), ('a', 'z'), ('A', 'Z')]

/-- Class `[0-9a-zA-Z-]`. -/
def hostCls : List (Char × Char) := [('0', '9'), ('a', 'z'), ('A', 'Z'), ('-', '-')]

/-- The all-zero GUID excluded by the negative lookahead. -/
def zeroGuid : String := "00000000-0000-0000-0000-000000000000"

/-- AST of the GUID pattern's parenthesized body: five `[0-9a-zA-Z]` groups of
lengths 8-4-4-4-12 joined by hyphens. -/
def guidBody : Rx.Regex :=
  .seq (.clsRep alnumCls 8) (.seq (.lit "-")
  (.seq (.clsRep alnumCls 4) (.seq (.lit "-")
  (.seq (.clsRep alnumCls 4) (.seq (.lit "-")
  (.seq (.clsRep alnumCls 4) (.seq (.lit "-")
  (.clsRep alnumCls 12))))))))

/-- AST of the full GUID pattern (both variants return the same string). -/
def guidTop : Rx.TopPattern := .anchoredFull zeroGuid guidBody

/-- AST of the `Commontests.js` URL pattern `^https?://[0-9a-zA-Z-]+\.?[0-9a-zA-Z-]+`. -/
def urlChakramTop : Rx.TopPattern :=
  .anchoredStart
    (.seq (.lit "http") (.seq (.optLit "s") (.seq (.lit "://")
     (.seq (.clsPlus hostCls) (.seq (.optLit ".") (.clsPlus hostCls))))))

/-- AST of the Postman-variant URL pattern
`^https?://[0-9a-zA-Z-]+\.[0-9a-zA-Z-]+|https?://localhost`. -/
def urlPmTop : Rx.TopPattern :=
  .anchoredAltFloating
    (.seq (.lit "http") (.seq (.optLit "s") (.seq (.lit "://")
     (.seq (.clsPlus hostCls) (.seq (.lit ".") (.clsPlus hostCls))))))
    (.seq (.lit "http") (.seq (.optLit "s") (.lit "://localhost")))

/-- The GUID AST prints back to the exact pattern string the source returns. -/
theorem guidTop_printed : Rx.printTop guidTop = Pm.getRegexGUID := by decide

/-- Both variants return the same GUID pattern string. -/
theorem guid_strings_equal : Chakram.getRegexGUID = Pm.getRegexGUID := rfl

/-- The chakram URL AST prints back to the exact `Commontests.js` pattern. -/
theorem urlChakramTop_printed : Rx.printTop urlChakramTop = Chakram.getRegexURL := by decide

/-- The Postman URL AST prints back to the exact Postman-variant pattern. -/
theorem urlPmTop_printed : Rx.printTop urlPmTop = Pm.getRegexURL := by decide

/-! ## Claim theorems -/

/-- A fixed host state for witnesses: status 204, elapsed 321 ms. -/
def sampleHost : Host :=
  ⟨204, 321, "application/json", fun _ => none, "", .obj [], fun _ => true, "boom", "/"⟩

/-- A host state whose response code is in the abort set. -/
def abortHost : Host :=
  ⟨503, 10, "text/plain", fun _ => none, "", .null, fun _ => false, "", ""⟩

/-- The invariant of claim C1 for one invocation: either no error and exactly
one registered outcome, or an error and no outcome. -/
def oneOutcomeXorError (r : RunResult) : Prop :=
  (r.error = none ∧ r.outcomes.length = 1) ∨ ((∃ e, r.error = some e) ∧ r.outcomes = [])

lemma oneXor_chakram_status (h : Host) (v : JSValue) :
    oneOutcomeXorError (Chakram.checkStatusCode h v) := by
  unfold Chakram.checkStatusCode
  split_ifs <;> simp [oneOutcomeXorError, RunResult.one, RunResult.raise]

lemma oneXor_chakram_time (h : Host) (v : JSValue) :
    oneOutcomeXorError (Chakram.checkTime h v) := by
  unfold Chakram.checkTime
  split_ifs <;> cases v <;> simp [oneOutcomeXorError, RunResult.one, RunResult.raise]

lemma oneXor_chakram_contentType (h : Host) (v : JSValue) :
    oneOutcomeXorError (Chakram.checkContentType h v) := by
  simp [Chakram.checkContentType, oneOutcomeXorError, RunResult.one]

lemma oneXor_chakram_jsonSchema (h : Host) (v : JSValue) :
    oneOutcomeXorError (Chakram.checkJSONSchema h v) := by
  unfold Chakram.checkJSONSchema
  split_ifs <;> simp [oneOutcomeXorError, RunResult.one, RunResult.raise]

lemma oneXor_chakram_location (h : Host) (v : JSValue) :
    oneOutcomeXorError (Chakram.checkLocation h v) := by
  simp [Chakram.checkLocation, oneOutcomeXorError, RunResult.one]

lemma oneXor_pm_status (h : Host) (v : JSValue) :
    oneOutcomeXorError (Pm.checkStatusCode h v) := by
  unfold Pm.checkStatusCode
  cases v <;> simp [oneOutcomeXorError, RunResult.raise]
  case num c =>
    cases hsd : Pm.statusDescr c <;>
      simp [oneOutcomeXorError, RunResult.raise]

lemma oneXor_pm_time (h : Host) (v : JSValue) :
    oneOutcomeXorError (Pm.checkTime h v) := by
  unfold Pm.checkTime
  cases v <;> simp [oneOutcomeXorError, RunResult.one, RunResult.raise]
  case num t => split_ifs <;> simp [RunResult.one, RunResult.raise]

lemma oneXor_pm_contentType (h : Host) (v : JSValue) :
    oneOutcomeXorError (Pm.checkContentType h v) := by
  unfold Pm.checkContentType
  cases v <;> simp [oneOutcomeXorError, RunResult.one, RunResult.raise]

lemma oneXor_pm_jsonSchema (h : Host) (v : JSValue) :
    oneOutcomeXorError (Pm.checkJSONSchema h v) := by
  unfold Pm.checkJSONSchema
  cases v <;> simp [oneOutcomeXorError, RunResult.one, RunResult.raise]

lemma oneXor_pm_location (h : Host) (v : JSValue) :
    oneOutcomeXorError (Pm.checkLocation h v) := by
  unfold Pm.checkLocation
  cases v <;> simp [oneOutcomeXorError, RunResult.one, RunResult.raise]

/-- C1: in both source variants, every assertion function (status code,
content type, time, JSON schema, Location) on every argument and host state
either registers exactly one named outcome with no error, or raises exactly
one TypeError/RangeError validation error with no outcome — never both,
never neither. -/
theorem claim_C1 (h : Host) (v : JSValue) :
    oneOutcomeXorError (Chakram.checkStatusCode h v) ∧
    oneOutcomeXorError (Chakram.checkContentType h v) ∧
    oneOutcomeXorError (Chakram.checkTime h v) ∧
    oneOutcomeXorError (Chakram.checkJSONSchema h v) ∧
    oneOutcomeXorError (Chakram.checkLocation h v) ∧
    oneOutcomeXorError (Pm.checkStatusCode h v) ∧
    oneOutcomeXorError (Pm.checkContentType h v) ∧
    oneOutcomeXorError (Pm.checkTime h v) ∧
    oneOutcomeXorError (Pm.checkJSONSchema h v) ∧
    oneOutcomeXorError (Pm.checkLocation h v) :=
  ⟨oneXor_chakram_status h v, oneXor_chakram_contentType h v, oneXor_chakram_time h v,
   oneXor_chakram_jsonSchema h v, oneXor_chakram_location h v, oneXor_pm_status h v,
   oneXor_pm_contentType h v, oneXor_pm_time h v, oneXor_pm_jsonSchema h v,
   oneXor_pm_location h v⟩

/-- C2: for every integer `c` in `[100, 599]`, both variants' status-code
checks register exactly one outcome labelled by `c`'s hundred-bucket and
asserting that the actual status equals `c`; for `c` outside `[100, 599]`
both raise a RangeError and register nothing. -/
theorem claim_C2 (h : Host) (c : Int) :
    (100 ≤ c → c ≤ 599 →
      (Pm.checkStatusCode h (.num c)).error = none ∧
      (Pm.checkStatusCode h (.num c)).outcomes =
        [⟨"Status Code " ++
            (if 100 ≤ c ∧ c ≤ 199 then "(Information)"
             else if 200 ≤ c ∧ c ≤ 299 then "(Success)"
             else if 300 ≤ c ∧ c ≤ 399 then "(Redirection)"
             else if 400 ≤ c ∧ c ≤ 499 then "(Client Error)"
             else "(Server Error)"), .statusIs (.num c)⟩] ∧
      (Chakram.checkStatusCode h (.num c)).error = none ∧
      (Chakram.checkStatusCode h (.num c)).outcomes =
        [⟨(if 100 ≤ c ∧ c ≤ 199 then "should be an information response"
           else if 200 ≤ c ∧ c ≤ 299 then "should be a successful response"
           else if 300 ≤ c ∧ c ≤ 399 then "should be a redirection response"
           else if 400 ≤ c ∧ c ≤ 499 then "should be a client error response"
           else "should be a server error response"), .statusIs (.num c)⟩] ∧
      (evalAssertion h (.statusIs (.num c)) = true ↔ h.code = c)) ∧
    (¬ (100 ≤ c ∧ c ≤ 599) →
      (Pm.checkStatusCode h (.num c)).outcomes = [] ∧
      (Pm.checkStatusCode h (.num c)).error =
        some (.rangeError (Pm.rangeErrMsg "checkStatusCode")) ∧
      (Chakram.checkStatusCode h (.num c)).outcomes = [] ∧
      (Chakram.checkStatusCode h (.num c)).error =
        some (.rangeError Chakram.statusRangeMsg)) := by
  constructor
  · intro h1 h2
    rcases (by omega :
        (100 ≤ c ∧ c ≤ 199) ∨ (200 ≤ c ∧ c ≤ 299) ∨ (300 ≤ c ∧ c ≤ 399) ∨
        (400 ≤ c ∧ c ≤ 499) ∨ (500 ≤ c ∧ c ≤ 599)) with hr | hr | hr | hr | hr <;>
      simp [Pm.checkStatusCode, Pm.statusDescr, Chakram.checkStatusCode, jsLeL, jsLeR,
        toNumberOpt, RunResult.one, evalAssertion, hr.1, hr.2, beq_iff_eq] <;>
      split_ifs <;> simp_all
  · intro hno
    simp [Pm.checkStatusCode, Pm.statusDescr, Chakram.checkStatusCode, jsLeL, jsLeR,
      toNumberOpt, RunResult.raise]
    split_ifs <;> simp_all <;> omega

/-- C2 witness: at status code 204 both variants register the Success-bucket
outcome, and at 700 both raise RangeError. -/
theorem claim_C2_witness :
    ((Pm.checkStatusCode sampleHost (.num 204)).outcomes =
       [⟨"Status Code (Success)", .statusIs (.num 204)⟩] ∧
     (Chakram.checkStatusCode sampleHost (.num 204)).outcomes =
       [⟨"should be a successful response", .statusIs (.num 204)⟩]) ∧
    ((Pm.checkStatusCode sampleHost (.num 700)).outcomes = [] ∧
     (Pm.checkStatusCode sampleHost (.num 700)).error =
       some (.rangeError (Pm.rangeErrMsg "checkStatusCode"))) := by
  have hpos := (claim_C2 sampleHost 204).1 (by norm_num) (by norm_num)
  have hneg := (claim_C2 sampleHost 700).2 (by norm_num)
  refine ⟨⟨?_, ?_⟩, hneg.1, hneg.2.1⟩
  · simpa using hpos.2.1
  · simpa using hpos.2.2.2.1

/-- C3: the Postman status-code check calls `setNextRequest(null)` exactly once
when the (valid) expected code differs from the actual code and the actual code
is in the fixed set {503, 500, 502, 504, 401, 403}; and never when the actual
code is outside that set or matches the expected code. -/
theorem claim_C3 (h : Host) (c : Int) :
    (100 ≤ c → c ≤ 599 → h.code ≠ c → h.code ∈ Pm.ERROR_CODES →
       (Pm.checkStatusCode h (.num c)).aborts = 1) ∧
    (h.code ∉ Pm.ERROR_CODES ∨ h.code = c →
       (Pm.checkStatusCode h (.num c)).aborts = 0) := by
  constructor
  · intro h1 h2 hne hmem
    obtain ⟨d, hd⟩ : ∃ d, Pm.statusDescr c = some d := by
      unfold Pm.statusDescr
      split_ifs <;> first | exact ⟨_, rfl⟩ | omega
    simp [Pm.checkStatusCode, hd, hne, hmem]
  · intro hdisj
    cases hsd : Pm.statusDescr c with
    | none => simp [Pm.checkStatusCode, hsd, RunResult.raise]
    | some d =>
      simp only [Pm.checkStatusCode, hsd]
      rw [if_neg]
      tauto

/-- C3 witness: with actual code 503, expecting 200 aborts once; expecting 503
(a match) does not abort. -/
theorem claim_C3_witness :
    (Pm.checkStatusCode abortHost (.num 200)).aborts = 1 ∧
    (Pm.checkStatusCode abortHost (.num 503)).aborts = 0 :=
  ⟨(claim_C3 abortHost 200).1 (by norm_num) (by norm_num) (by decide) (by decide),
   (claim_C3 abortHost 503).2 (Or.inr rfl)⟩

/-- C4 (amended): in the Postman variant, each of the five assertion functions
raises a TypeError naming itself, and registers no outcome, whenever its
primary argument's runtime kind mismatches the documented expectation
(Number for status/time, String for content-type/location, Object for the
schema).  (The `Commontests.js` variant does not have this property — see the
counterexample.) -/
theorem claim_C4 (h : Host) (v : JSValue) :
    (getType v ≠ "Number" →
       Pm.checkStatusCode h v = RunResult.raise (.typeError (Pm.typeErrMsg "checkStatusCode")) ∧
       Pm.checkTime h v = RunResult.raise (.typeError (Pm.typeErrMsg "checkTime"))) ∧
    (getType v ≠ "String" →
       Pm.checkContentType h v = RunResult.raise (.typeError (Pm.typeErrMsg "checkContentType")) ∧
       Pm.checkLocation h v = RunResult.raise (.typeError (Pm.typeErrMsg "checkLocation"))) ∧
    (getType v ≠ "Object" →
       Pm.checkJSONSchema h v = RunResult.raise (.typeError (Pm.typeErrMsg "checkJSONSchema"))) := by
  cases v <;>
    refine ⟨fun hk => ?_, fun hk => ?_, fun hk => ?_⟩ <;>
    first
      | exact absurd rfl hk
      | exact ⟨rfl, rfl⟩
      | rfl

/-- C4 counterexample: the `Commontests.js` `checkContentType`, called with the
number 42 (kind mismatch: a string is documented), registers an outcome and
raises nothing — refuting the claim for that variant. -/
theorem claim_C4_counterexample :
    (Chakram.checkContentType sampleHost (.num 42)).error = none ∧
    (Chakram.checkContentType sampleHost (.num 42)).outcomes =
      [⟨"should be of type \"42\"", .typeEquals (.num 42)⟩] :=
  ⟨rfl, rfl⟩

/-- C4 witness: at the `null` argument each Postman check raises its TypeError. -/
theorem claim_C4_witness :
    Pm.checkStatusCode sampleHost .null =
      RunResult.raise (.typeError (Pm.typeErrMsg "checkStatusCode")) ∧
    Pm.checkTime sampleHost .null =
      RunResult.raise (.typeError (Pm.typeErrMsg "checkTime")) ∧
    Pm.checkContentType sampleHost .null =
      RunResult.raise (.typeError (Pm.typeErrMsg "checkContentType")) ∧
    Pm.checkLocation sampleHost .null =
      RunResult.raise (.typeError (Pm.typeErrMsg "checkLocation")) ∧
    Pm.checkJSONSchema sampleHost .null =
      RunResult.raise (.typeError (Pm.typeErrMsg "checkJSONSchema")) := by
  have h1 := (claim_C4 sampleHost .null).1 (by decide)
  have h2 := (claim_C4 sampleHost .null).2.1 (by decide)
  have h3 := (claim_C4 sampleHost .null).2.2 (by decide)
  exact ⟨h1.1, h1.2, h2.1, h2.2, h3⟩

/-- C8: for every integer `t ≤ 0` both variants' `checkTime` raise RangeError
and register nothing; for `t > 0` both register exactly one outcome asserting
the response's elapsed time is strictly below `t`. -/
theorem claim_C8 (h : Host) (t : Int) :
    (t ≤ 0 →
       Chakram.checkTime h (.num t) =
         RunResult.raise (.rangeError
           "Parameter value must be a strictly positive number for function \"checkTime(time)\"") ∧
       Pm.checkTime h (.num t) = RunResult.raise (.rangeError (Pm.rangeErrMsg "checkTime"))) ∧
    (0 < t →
       (Chakram.checkTime h (.num t)).outcomes =
         [⟨"should respond within " ++ convertTimeNum t, .timeBelow t⟩] ∧
       (Chakram.checkTime h (.num t)).error = none ∧
       (Pm.checkTime h (.num t)).outcomes =
         [⟨"Response Time < " ++ convertTimeNum t, .timeBelow t⟩] ∧
       (Pm.checkTime h (.num t)).error = none ∧
       (evalAssertion h (.timeBelow t) = true ↔ h.time < t)) := by
  constructor
  · intro hle
    have : ¬ jsGt (.num t) 0 = true := by simp [jsGt, toNumberOpt]; omega
    constructor
    · simp [Chakram.checkTime, this]
    · simp [Pm.checkTime, show ¬ 0 < t by omega]
  · intro hpos
    have : jsGt (.num t) 0 = true := by simp [jsGt, toNumberOpt]; omega
    refine ⟨?_, ?_, ?_, ?_, ?_⟩ <;>
      simp [Chakram.checkTime, Pm.checkTime, this, hpos, RunResult.one, evalAssertion,
        decide_eq_true_eq]

/-- C8 witness: `checkTime 500` registers the below-500 outcome, `checkTime 0`
and `checkTime (-5)` raise RangeError. -/
theorem claim_C8_witness :
    convertTimeNum 500 = "500ms" ∧
    (Pm.checkTime sampleHost (.num 500)).outcomes =
      [⟨"Response Time < " ++ convertTimeNum 500, .timeBelow 500⟩] ∧
    (Chakram.checkTime sampleHost (.num 500)).outcomes =
      [⟨"should respond within " ++ convertTimeNum 500, .timeBelow 500⟩] ∧
    Pm.checkTime sampleHost (.num 0) =
      RunResult.raise (.rangeError (Pm.rangeErrMsg "checkTime")) ∧
    Pm.checkTime sampleHost (.num (-5)) =
      RunResult.raise (.rangeError (Pm.rangeErrMsg "checkTime")) :=
  ⟨rfl,
   ((claim_C8 sampleHost 500).2 (by norm_num)).2.2.1,
   ((claim_C8 sampleHost 500).2 (by norm_num)).1,
   ((claim_C8 sampleHost 0).1 (by norm_num)).2,
   ((claim_C8 sampleHost (-5)).1 (by norm_num)).2⟩

lemma RunResult.andThen_skip (r : RunResult) : r.andThen (fun _ => RunResult.skip) = r := by
  cases r with
  | mk o a e => cases e <;> simp [RunResult.andThen, RunResult.skip]

/-- Modelled from the spec's words (§4.5), as the reference side of refinement
claim C5: `testCommon` logs the body, runs the status-code check whenever
`statusCode` is truthy, and runs each of the content-type, JSON-schema and
Location checks whenever its argument is supplied (truthy) — gated, in the
stricter variant, on the actual response code strictly equalling `statusCode`.
The variant's own individual checks and logger are passed in, since the claim
is about which checks run. -/
def testCommonSpecModel (gated : Bool)
    (checkSC checkCT checkJS checkLoc : Host → JSValue → RunResult)
    (logRB : Host → RunResult)
    (h : Host) (statusCode contentType jsonSchema location : JSValue) : RunResult :=
  (logRB h).andThen fun _ =>
  (if truthy statusCode then checkSC h statusCode else RunResult.skip).andThen fun _ =>
  (if !gated || jsStrictEq (.num h.code) statusCode then
    (if truthy contentType then checkCT h contentType else RunResult.skip).andThen fun _ =>
    (if truthy jsonSchema then checkJS h jsonSchema else RunResult.skip).andThen fun _ =>
    (if truthy location then checkLoc h location else RunResult.skip)
   else RunResult.skip)

/-- C5: the Postman `testCommon` equals the spec model with gating on, the
`Commontests.js` `testCommon` equals it with gating off (both running the
status-code check whenever `statusCode` is truthy); and when the actual code
differs from `statusCode`, the Postman variant performs only the logging and
the status-code check. -/
theorem claim_C5 (h : Host) (sc ct js loc : JSValue) :
    (Pm.testCommon h sc ct js loc =
      testCommonSpecModel true Pm.checkStatusCode Pm.checkContentType Pm.checkJSONSchema
        Pm.checkLocation Pm.logResponseBody h sc ct js loc) ∧
    (Chakram.testCommon h sc ct js loc =
      testCommonSpecModel false Chakram.checkStatusCode Chakram.checkContentType
        Chakram.checkJSONSchema Chakram.checkLocation Chakram.logResponseBody h sc ct js loc) ∧
    (jsStrictEq (.num h.code) sc = false →
      Pm.testCommon h sc ct js loc =
        (Pm.logResponseBody h).andThen fun _ =>
          (if truthy sc then Pm.checkStatusCode h sc else RunResult.skip)) := by
  refine ⟨by simp [Pm.testCommon, testCommonSpecModel], by simp [Chakram.testCommon, testCommonSpecModel], fun hne => ?_⟩
  simp [Pm.testCommon, hne, RunResult.andThen_skip]

/-- C5 witness: with actual status 204 and expected 500, the Postman variant
registers only the status outcome while the chakram variant also registers the
content-type outcome. -/
theorem claim_C5_witness :
    Pm.testCommon sampleHost (.num 500) (.str "application/json") .undefined .undefined =
      ⟨[⟨"Status Code (Server Error)", .statusIs (.num 500)⟩], 0, none⟩ ∧
    Chakram.testCommon sampleHost (.num 500) (.str "application/json") .undefined .undefined =
      ⟨[⟨"should be a server error response", .statusIs (.num 500)⟩,
        ⟨"should be of type \"application/json\"", .typeEquals (.str "application/json")⟩],
       0, none⟩ := by
  constructor
  · have hgate := (claim_C5 sampleHost (.num 500) (.str "application/json") .undefined .undefined).2.2 rfl
    rw [hgate]
    rfl
  · rfl

/-- Extracts the resource-list items schema from a `getSchemaHAL` result. -/
def halItemsOf (r : Except JSError JSValue) : Option JSValue :=
  match r with
  | .ok j => pathLookup j ["properties", "_embedded", "properties", "resourceList", "items"]
  | .error _ => none

/-- Extracts the top-level `required` list from a `getSchemaHAL` result. -/
def halRequiredOf (r : Except JSError JSValue) : Option JSValue :=
  match r with
  | .ok j => objLookup j "required"
  | .error _ => none

/-- C6 (amended): in the Postman variant, `getSchemaHAL` applied to an
object-shaped value `s` (or to no argument, i.e. `undefined`, which the `= {}`
default turns into the empty object) returns a schema requiring the top-level
keys `_links`, `_embedded` and `_page`, whose
`_embedded.properties.resourceList.items` is exactly the (defaulted) `s`; for
any other value it raises a TypeError naming `getSchemaHAL`.  (The
`Commontests.js` variant performs no such check — see the counterexample.) -/
theorem claim_C6 (s : JSValue) :
    (getType s = "Object" ∨ s = .undefined →
       halRequiredOf (Pm.getSchemaHAL s) =
         some (.arr [.str "_links", .str "_embedded", .str "_page"]) ∧
       halItemsOf (Pm.getSchemaHAL s) = some (defaultItems s)) ∧
    (getType s ≠ "Object" → s ≠ .undefined →
       Pm.getSchemaHAL s = .error (.typeError (Pm.typeErrMsg "getSchemaHAL"))) ∧
    defaultItems .undefined = .obj [] := by
  refine ⟨fun hs => ?_, fun h1 h2 => ?_, rfl⟩
  · cases s <;> simp [getType] at hs <;> exact ⟨rfl, rfl⟩
  · cases s <;> first
      | rfl
      | exact absurd rfl h1
      | exact absurd rfl h2

/-- C6 counterexample: the `Commontests.js` `getSchemaHAL`, applied to the
non-object number 5, does not raise: it returns the HAL schema with 5 embedded
as the items schema — refuting the claim for that variant. -/
theorem claim_C6_counterexample :
    pathLookup (Chakram.getSchemaHAL (.num 5))
      ["properties", "_embedded", "properties", "resourceList", "items"] = some (.num 5) ∧
    objLookup (Chakram.getSchemaHAL (.num 5)) "required" =
      some (.arr [.str "_links", .str "_embedded", .str "_page"]) :=
  ⟨rfl, rfl⟩

/-- C6 witness: with no argument the items schema is the empty object schema,
and a numeric argument raises the TypeError. -/
theorem claim_C6_witness :
    halItemsOf (Pm.getSchemaHAL .undefined) = some (.obj []) ∧
    Pm.getSchemaHAL (.num 1) = .error (.typeError (Pm.typeErrMsg "getSchemaHAL")) :=
  ⟨((claim_C6 .undefined).1 (Or.inr rfl)).2,
   (claim_C6 (.num 1)).2.1 (by decide) (fun h => nomatch h)⟩

/-- Total property lookup on an object-shaped value (`undefined` otherwise);
the value `item[property]` takes inside the validated `findIndex` callback. -/
def objGetD (x : JSValue) (p : String) : JSValue :=
  match x with
  | .obj kvs => (kvs.lookup p).getD .undefined
  | _ => .undefined

/-- Pure first-match index used to characterize `findIndexJS` on validated
arrays. -/
def findIdxPure (p : String) (v : JSValue) : List JSValue → Option Nat
  | [] => none
  | x :: xs => if jsStrictEq (objGetD x p) v then some 0 else (findIdxPure p v xs).map (· + 1)

lemma findIndexJS_of_objects (p : String) (v : JSValue) :
    ∀ (xs : List JSValue) (i : Int), (∀ x ∈ xs, getType x = "Object") →
      findIndexJS p v xs i =
        .ok (match findIdxPure p v xs with | some k => i + k | none => -1) := by
  intro xs
  induction xs with
  | nil => intro i _; rfl
  | cons x xs ih =>
    intro i hx
    obtain ⟨kvs, rfl⟩ : ∃ kvs, x = .obj kvs := by
      have := hx x (List.mem_cons_self x xs)
      cases x <;> simp [getType] at this ⊢
    have hobj : getProp (.obj kvs) p = .ok (objGetD (.obj kvs) p) := rfl
    simp only [findIndexJS, hobj, findIdxPure]
    split_ifs with hm
    · simp
    · rw [ih (i + 1) (fun y hy => hx y (List.mem_cons_of_mem _ hy))]
      cases hk : findIdxPure p v xs <;> simp
      omega

lemma findIdxPure_none_iff (p : String) (v : JSValue) :
    ∀ xs : List JSValue,
      findIdxPure p v xs = none ↔ ∀ x ∈ xs, jsStrictEq (objGetD x p) v = false := by
  intro xs
  induction xs with
  | nil => simp [findIdxPure]
  | cons x xs ih =>
    simp only [findIdxPure]
    split_ifs with hm
    · simp [hm]
    · simp [hm, ih, Option.map_eq_none']

lemma findIdxPure_some_spec (p : String) (v : JSValue) :
    ∀ (xs : List JSValue) (k : Nat), findIdxPure p v xs = some k →
      k < xs.length ∧ jsStrictEq (objGetD (xs.getD k .undefined) p) v = true ∧
      ∀ j : Nat, j < k → jsStrictEq (objGetD (xs.getD j .undefined) p) v = false := by
  intro xs
  induction xs with
  | nil => intro k hk; simp [findIdxPure] at hk
  | cons x xs ih =>
    intro k hk
    simp only [findIdxPure] at hk
    split_ifs at hk with hm
    · cases hk
      exact ⟨by simp, by simpa using hm, by omega⟩
    · rcases Option.map_eq_some'.mp hk with ⟨k', hk', rfl⟩
      obtain ⟨h1, h2, h3⟩ := ih k' hk'
      refine ⟨by simpa using h1, by simpa using h2, fun j hj => ?_⟩
      cases j with
      | zero => simpa using hm
      | succ j' => simpa using h3 j' (by omega)

/-- C7 (amended): in the Postman variant, `getIndexObjectInArray` on an array
whose every element has runtime kind Object and a string property name returns
the index of the first element whose named property strictly equals the given
value, or -1 when none matches; it raises a TypeError for a non-array first
argument, for an element of non-Object kind, and for a non-string property
name.  (The `Commontests.js` variant accepts elements of Array/Error kind —
see the counterexample.) -/
theorem claim_C7 (a : JSValue) (xs : List JSValue) (p : String) (q v : JSValue) :
    ((∀ x ∈ xs, getType x = "Object") →
      ∃ n : Int, Pm.getIndexObjectInArray (.arr xs) (.str p) v = .ok n ∧
        ((n = -1 ∧ ∀ x ∈ xs, jsStrictEq (objGetD x p) v = false) ∨
         (∃ k : Nat, n = (k : Int) ∧ k < xs.length ∧
           jsStrictEq (objGetD (xs.getD k .undefined) p) v = true ∧
           ∀ j : Nat, j < k → jsStrictEq (objGetD (xs.getD j .undefined) p) v = false))) ∧
    (getType a ≠ "Array" →
      Pm.getIndexObjectInArray a (.str p) v =
        .error (.typeError (Pm.typeErrMsg "getIndexObjectInArray"))) ∧
    ((∃ x ∈ xs, getType x ≠ "Object") →
      Pm.getIndexObjectInArray (.arr xs) (.str p) v =
        .error (.typeError (Pm.typeErrMsg "getIndexObjectInArray"))) ∧
    (getType q ≠ "String" →
      Pm.getIndexObjectInArray (.arr xs) q v =
        .error (.typeError (Pm.typeErrMsg "getIndexObjectInArray"))) := by
  refine ⟨fun hobj => ?_, fun ha => ?_, fun hbad => ?_, fun hq => ?_⟩
  · have hall : xs.all (fun x => getType x == "Object") = true := by
      rw [List.all_eq_true]
      intro x hx
      simpa using hobj x hx
    simp only [Pm.getIndexObjectInArray, hall, if_true,
      findIndexJS_of_objects p v xs 0 hobj, Except.mapError]
    cases hk : findIdxPure p v xs with
    | none => exact ⟨-1, rfl, Or.inl ⟨rfl, (findIdxPure_none_iff p v xs).mp hk⟩⟩
    | some k =>
      obtain ⟨h1, h2, h3⟩ := findIdxPure_some_spec p v xs k hk
      exact ⟨(k : Int), by norm_num, Or.inr ⟨k, rfl, h1, h2, h3⟩⟩
  · cases a <;> first
      | rfl
      | exact absurd rfl ha
  · have hall : ¬ xs.all (fun x => getType x == "Object") = true := by
      rw [List.all_eq_true]
      push_neg
      obtain ⟨x, hx, hne⟩ := hbad
      exact ⟨x, hx, by simpa using hne⟩
    simp [Pm.getIndexObjectInArray, hall]
  · cases q <;> first
      | rfl
      | exact absurd rfl hq

/-- C7 counterexample: the `Commontests.js` variant, given an array whose
element has runtime kind Array (not Object), does not raise a TypeError — the
element passes the `typeof item === 'object'` check and the call returns -1. -/
theorem claim_C7_counterexample :
    Chakram.getIndexObjectInArray (.arr [.arr [.num 1]]) (.str "id") (.num 9) = .ok (-1) := rfl

/-- C7 witness: the claim's concrete examples on the Postman variant, and the
non-array TypeError via the theorem. -/
theorem claim_C7_witness :
    Pm.getIndexObjectInArray (.arr [.obj [("id", .num 1)], .obj [("id", .num 2)]])
      (.str "id") (.num 2) = .ok 1 ∧
    Pm.getIndexObjectInArray (.arr [.obj [("id", .num 1)]]) (.str "id") (.num 9) = .ok (-1) ∧
    Pm.getIndexObjectInArray (.num 3) (.str "id") (.num 2) =
      .error (.typeError (Pm.typeErrMsg "getIndexObjectInArray")) :=
  ⟨rfl, rfl, (claim_C7 (.num 3) [] "id" .undefined (.num 2)).2.1 (by decide)⟩

/-! ## Matching lemmas for the regex fragment -/

namespace Rx

lemma mem_litRem {s : String} {cs rest : List Char} :
    rest ∈ (if s.toList.isPrefixOf cs then [cs.drop s.toList.length] else []) ↔
      cs = s.toList ++ rest := by
  split_ifs with hp
  · rw [List.mem_singleton]
    rw [ List.isPrefixOf_iff_prefix] at hp
    obtain ⟨t, rfl⟩ := hp
    constructor
    · rintro rfl
      rw [List.drop_left]
    · intro h
      have ht : t = rest := List.append_cancel_left h
      rw [ht, List.drop_left]
  · simp only [List.not_mem_nil, false_iff]
    intro h
    exact hp ( List.isPrefixOf_iff_prefix.mpr ⟨rest, h.symm⟩)

lemma mem_mrem_lit {s : String} {cs rest : List Char} :
    rest ∈ mrem (.lit s) cs ↔ cs = s.toList ++ rest := by
  simp only [mrem]
  exact mem_litRem

lemma mem_mrem_optLit {s : String} {cs rest : List Char} :
    rest ∈ mrem (.optLit s) cs ↔ (cs = s.toList ++ rest ∨ rest = cs) := by
  simp only [mrem, List.mem_append, List.mem_singleton]
  rw [mem_litRem]

lemma mem_mrem_seq {a b : Regex} {cs rest : List Char} :
    rest ∈ mrem (.seq a b) cs ↔ ∃ mid, mid ∈ mrem a cs ∧ rest ∈ mrem b mid := by
  simp [mrem, List.mem_flatMap]

lemma mem_clsSplits {p : Char → Bool} :
    ∀ {cs rest : List Char},
      rest ∈ clsSplits p cs ↔ ∃ pre, cs = pre ++ rest ∧ pre ≠ [] ∧ pre.all p := by
  intro cs
  induction cs with
  | nil =>
    intro rest
    simp only [clsSplits, List.not_mem_nil, false_iff]
    rintro ⟨pre, heq, hne, _⟩
    exact hne (List.append_eq_nil.mp heq.symm).1
  | cons c cs ih =>
    intro rest
    simp only [clsSplits]
    split_ifs with hc
    · rw [List.mem_cons]
      constructor
      · rintro (rfl | hr)
        · exact ⟨[c], rfl, by simp, by simp [hc]⟩
        · obtain ⟨pre, rfl, hne, hall⟩ := ih.mp hr
          exact ⟨c :: pre, rfl, by simp, by simp [List.all_cons, hc, hall]⟩
      · rintro ⟨pre, heq, hne, hall⟩
        cases pre with
        | nil => exact absurd rfl hne
        | cons d pre' =>
          obtain ⟨rfl, htail⟩ : d = c ∧ pre' ++ rest = cs := by
            have := heq.symm
            rw [List.cons_append] at this
            exact ⟨(List.cons.injEq ..).mp this |>.1, (List.cons.injEq ..).mp this |>.2⟩
          cases pre' with
          | nil => exact Or.inl (by simpa using htail)
          | cons e pre'' =>
            refine Or.inr (ih.mpr ⟨e :: pre'', htail.symm, by simp, ?_⟩)
            have := List.all_eq_true.mp hall
            rw [List.all_eq_true]
            intro x hx
            exact this x (List.mem_cons_of_mem _ hx)
    · simp only [List.not_mem_nil, false_iff]
      rintro ⟨pre, heq, hne, hall⟩
      cases pre with
      | nil => exact hne rfl
      | cons d pre' =>
        have hd : d = c := by
          have := heq.symm
          rw [List.cons_append] at this
          exact ((List.cons.injEq ..).mp this).1
        have : p d = true := List.all_eq_true.mp hall d (List.mem_cons_self ..)
        rw [hd] at this
        exact hc this

lemma clsRepRem_eq_some {p : Char → Bool} :
    ∀ (n : Nat) (cs rest : List Char),
      clsRepRem p n cs = some rest ↔
        ∃ pre, cs = pre ++ rest ∧ pre.length = n ∧ pre.all p := by
  intro n
  induction n with
  | zero =>
    intro cs rest
    simp only [clsRepRem, Option.some.injEq]
    constructor
    · rintro rfl
      exact ⟨[], rfl, rfl, rfl⟩
    · rintro ⟨pre, rfl, hl, _⟩
      rw [List.length_eq_zero.mp hl]
      rfl
  | succ n ih =>
    intro cs rest
    cases cs with
    | nil =>
      simp only [clsRepRem]
      constructor
      · rintro ⟨⟩
      · rintro ⟨pre, heq, hl, _⟩
        have := (List.append_eq_nil.mp heq.symm).1
        rw [this] at hl
        exact absurd hl (by simp)
    | cons c cs' =>
      simp only [clsRepRem]
      split_ifs with hc
      · rw [ih]
        constructor
        · rintro ⟨pre, rfl, hl, ha⟩
          exact ⟨c :: pre, rfl, by simp [hl], by simp [List.all_cons, hc, ha]⟩
        · rintro ⟨pre, heq, hl, ha⟩
          cases pre with
          | nil => exact absurd hl (by simp)
          | cons d pre' =>
            obtain ⟨rfl, htail⟩ : d = c ∧ pre' ++ rest = cs' := by
              have := heq.symm
              rw [List.cons_append] at this
              exact ⟨((List.cons.injEq ..).mp this).1, ((List.cons.injEq ..).mp this).2⟩
            refine ⟨pre', htail.symm, by simpa using hl, ?_⟩
            rw [List.all_eq_true]
            intro x hx
            exact List.all_eq_true.mp ha x (List.mem_cons_of_mem _ hx)
      · constructor
        · rintro ⟨⟩
        · rintro ⟨pre, heq, hl, ha⟩
          cases pre with
          | nil => exact absurd hl (by simp)
          | cons d pre' =>
            have hd : d = c := by
              have := heq.symm
              rw [List.cons_append] at this
              exact ((List.cons.injEq ..).mp this).1
            have : p d = true := List.all_eq_true.mp ha d (List.mem_cons_self ..)
            rw [hd] at this
            exact hc this

lemma mem_mrem_clsRep {rs : List (Char × Char)} {n : Nat} {cs rest : List Char} :
    rest ∈ mrem (.clsRep rs n) cs ↔
      ∃ pre, cs = pre ++ rest ∧ pre.length = n ∧ pre.all (inCls rs) := by
  simp only [mrem, Option.mem_toList, Option.mem_def]
  exact clsRepRem_eq_some n cs rest

lemma mem_mrem_clsPlus {rs : List (Char × Char)} {cs rest : List Char} :
    rest ∈ mrem (.clsPlus rs) cs ↔
      ∃ pre, cs = pre ++ rest ∧ pre ≠ [] ∧ pre.all (inCls rs) := by
  simp only [mrem]
  exact mem_clsSplits

lemma matchedAt_iff {r : Regex} {cs : List Char} :
    matchedAt r cs = true ↔ ∃ rest, rest ∈ mrem r cs := by
  simp only [matchedAt, Bool.not_eq_true', List.isEmpty_eq_false_iff_exists_mem]

end Rx

/-- Hexadecimal digit, as the claim's words demand ("hex-digit groups"). -/
def isHexDigit (c : Char) : Bool :=
  ('0' ≤ c && c ≤ '9') || ('a' ≤ c && c ≤ 'f') || ('A' ≤ c && c ≤ 'F')

/-- The canonical GUID group shape from the claim's words: five
hyphen-separated groups of lengths 8-4-4-4-12 whose characters all satisfy `p`. -/
def guidShape (p : Char → Bool) (s : String) : Prop :=
  ∃ g1 g2 g3 g4 g5 : List Char,
    s.toList = g1 ++ '-' :: (g2 ++ '-' :: (g3 ++ '-' :: (g4 ++ '-' :: g5))) ∧
    g1.length = 8 ∧ g2.length = 4 ∧ g3.length = 4 ∧ g4.length = 4 ∧ g5.length = 12 ∧
    g1.all p ∧ g2.all p ∧ g3.all p ∧ g4.all p ∧ g5.all p

/-- Claim C9's property as stated: the pattern's match set is exactly the
hex-digit GUIDs other than the all-zero one. -/
def claimHexGuid (s : String) : Prop := guidShape isHexDigit s ∧ s ≠ zeroGuid

lemma guidBody_full {cs : List Char} :
    [] ∈ Rx.mrem guidBody cs ↔
      ∃ g1 g2 g3 g4 g5 : List Char,
        cs = g1 ++ '-' :: (g2 ++ '-' :: (g3 ++ '-' :: (g4 ++ '-' :: g5))) ∧
        g1.length = 8 ∧ g2.length = 4 ∧ g3.length = 4 ∧ g4.length = 4 ∧ g5.length = 12 ∧
        g1.all (Rx.inCls alnumCls) ∧ g2.all (Rx.inCls alnumCls) ∧
        g3.all (Rx.inCls alnumCls) ∧ g4.all (Rx.inCls alnumCls) ∧
        g5.all (Rx.inCls alnumCls) := by
  have hdash : ("-" : String).toList = ['-'] := rfl
  simp only [guidBody, Rx.mem_mrem_seq, Rx.mem_mrem_clsRep, Rx.mem_mrem_lit, hdash]
  constructor
  · rintro ⟨m1, ⟨g1, rfl, h1, a1⟩, m2, rfl, m3, ⟨g2, rfl, h2, a2⟩, m4, rfl, m5,
      ⟨g3, rfl, h3, a3⟩, m6, rfl, m7, ⟨g4, rfl, h4, a4⟩, m8, rfl, g5, hg5, h5, a5⟩
    obtain rfl : g5 = m8 := by simpa using hg5.symm
    exact ⟨g1, g2, g3, g4, g5, by simp, h1, h2, h3, h4, h5, a1, a2, a3, a4, a5⟩
  · rintro ⟨g1, g2, g3, g4, g5, rfl, h1, h2, h3, h4, h5, a1, a2, a3, a4, a5⟩
    refine ⟨'-' :: (g2 ++ '-' :: (g3 ++ '-' :: (g4 ++ '-' :: g5))), ⟨g1, rfl, h1, a1⟩,
      g2 ++ '-' :: (g3 ++ '-' :: (g4 ++ '-' :: g5)), rfl,
      '-' :: (g3 ++ '-' :: (g4 ++ '-' :: g5)), ⟨g2, rfl, h2, a2⟩,
      g3 ++ '-' :: (g4 ++ '-' :: g5), rfl,
      '-' :: (g4 ++ '-' :: g5), ⟨g3, rfl, h3, a3⟩,
      g4 ++ '-' :: g5, rfl,
      '-' :: g5, ⟨g4, rfl, h4, a4⟩,
      g5, rfl, g5, by simp, h5, a5⟩

/-- C9 (amended): the GUID pattern matches exactly the strings of five
hyphen-separated groups of lengths 8-4-4-4-12 over the *alphanumeric* class
`[0-9a-zA-Z]` (not only hex digits), excluding the all-zero GUID; in
particular it matches the claim's positive example and rejects the all-zero
GUID. -/
theorem claim_C9 (s : String) :
    (Rx.rtest guidTop s = true ↔ (guidShape (Rx.inCls alnumCls) s ∧ s ≠ zeroGuid)) ∧
    Rx.rtest guidTop "123e4567-e89b-12d3-a456-426614174000" = true ∧
    Rx.rtest guidTop zeroGuid = false := by
  refine ⟨?_, by decide, by decide⟩
  show (!(zeroGuid.toList.isPrefixOf s.toList) &&
      (Rx.mrem guidBody s.toList).contains []) = true ↔ _
  rw [Bool.and_eq_true, Bool.not_eq_true']
  constructor
  · rintro ⟨hnp, hc⟩
    have hmem : [] ∈ Rx.mrem guidBody s.toList := List.elem_iff.mp hc
    refine ⟨guidBody_full.mp hmem, fun hz => ?_⟩
    subst hz
    rw [ List.isPrefixOf_iff_prefix.mpr (List.prefix_refl _)] at hnp
    exact Bool.true_eq_false.mp hnp
  · rintro ⟨hshape, hne⟩
    refine ⟨?_, List.elem_iff.mpr (guidBody_full.mpr hshape)⟩
    by_contra hp
    rw [Bool.not_eq_false,  List.isPrefixOf_iff_prefix] at hp
    have hlen : s.toList.length = 36 := by
      obtain ⟨g1, g2, g3, g4, g5, heq, h1, h2, h3, h4, h5, -⟩ := hshape
      rw [heq]
      simp [List.length_append, List.length_cons, h1, h2, h3, h4, h5]
    have hzlen : zeroGuid.toList.length = 36 := by decide
    have heq := List.IsPrefix.eq_of_length hp (by omega)
    exact hne (String.ext heq.symm)

/-- C9 counterexample: the pattern's classes are alphanumeric, not hex — it
accepts an all-`g` GUID-shaped string, which contains no hex digits, refuting
"matches exactly ... hex-digit groups". -/
theorem claim_C9_counterexample :
    Rx.rtest guidTop "gggggggg-gggg-gggg-gggg-gggggggggggg" = true ∧
    ¬ claimHexGuid "gggggggg-gggg-gggg-gggg-gggggggggggg" := by
  refine ⟨by decide, ?_⟩
  rintro ⟨⟨g1, g2, g3, g4, g5, heq, h1, -, -, -, -, a1, -⟩, -⟩
  have hg1 : g1 = ("gggggggg-gggg-gggg-gggg-gggggggggggg" : String).toList.take 8 := by
    rw [heq, List.take_left' h1]
  have hmem : 'g' ∈ g1 := by
    rw [hg1]
    decide
  have := List.all_eq_true.mp a1 'g' hmem
  simp [isHexDigit] at this

/-- A host character of the URL patterns: `[0-9a-zA-Z-]`. -/
def hostChar : Char → Bool := Rx.inCls hostCls

/-- Claim C10's property as stated (used to refute it): `s` begins with
`http://` or `https://`, and the host — the run up to the next `/` after the
scheme — contains a dot or is the literal `localhost`. -/
def claimURLModel (s : String) : Bool :=
  let t := s.toList
  let check := fun (scheme : List Char) =>
    t.take scheme.length == scheme &&
      (let host := (t.drop scheme.length).takeWhile (fun c => c != '/')
       host.contains '.' || host == ("localhost").toList)
  check (("http://").toList) || check (("https://").toList)

/-- What the `Commontests.js` URL pattern actually accepts: `http` plus an
optional `s`, then `://`, then one-or-more host characters, an *optional* dot,
and one-or-more host characters (then anything). -/
def AmendedChakramURL (s : String) : Prop :=
  ∃ optS a dot b r,
    (optS = [] ∨ optS = ['s']) ∧ (dot = [] ∨ dot = ['.']) ∧
    s.toList = ("http").toList ++ optS ++ ("://").toList ++ a ++ dot ++ b ++ r ∧
    a ≠ [] ∧ b ≠ [] ∧ a.all hostChar ∧ b.all hostChar

/-- What the Postman URL pattern actually accepts: either `http(s)://`, then
one-or-more host characters, a mandatory dot and one-or-more host characters
at the *start* of the string, or `http(s)://localhost` *anywhere* in the
string (the second alternative is unanchored). -/
def AmendedPmURL (s : String) : Prop :=
  (∃ optS a b r, (optS = [] ∨ optS = ['s']) ∧
     s.toList = ("http").toList ++ optS ++ ("://").toList ++ a ++ '.' :: (b ++ r) ∧
     a ≠ [] ∧ b ≠ [] ∧ a.all hostChar ∧ b.all hostChar) ∨
  (∃ u optS r, (optS = [] ∨ optS = ['s']) ∧
     s.toList = u ++ ("http").toList ++ optS ++ ("://localhost").toList ++ r)

lemma chakramURL_iff (s : String) :
    Rx.rtest urlChakramTop s = true ↔ AmendedChakramURL s := by
  have hsL : ("s" : String).toList = ['s'] := rfl
  have hdL : ("." : String).toList = ['.'] := rfl
  show Rx.matchedAt _ s.toList = true ↔ _
  rw [Rx.matchedAt_iff]
  simp only [Rx.mem_mrem_seq, Rx.mem_mrem_lit, Rx.mem_mrem_optLit, Rx.mem_mrem_clsPlus,
    hsL, hdL]
  constructor
  · rintro ⟨rest, m1, hm1, m2, hopt, m3, hm3, m4, ⟨a, ha, hane, haall⟩, m5, hdot,
      b, hb, hbne, hball⟩
    subst hm3
    subst ha
    subst hb
    rcases hopt with hs | hs <;> rcases hdot with hd | hd <;> subst hs <;> subst hd
    · exact ⟨['s'], a, ['.'], b, rest, Or.inr rfl, Or.inr rfl,
        by simpa [List.append_assoc] using hm1, hane, hbne, haall, hball⟩
    · exact ⟨['s'], a, [], b, rest, Or.inr rfl, Or.inl rfl,
        by simpa [List.append_assoc] using hm1, hane, hbne, haall, hball⟩
    · exact ⟨[], a, ['.'], b, rest, Or.inl rfl, Or.inr rfl,
        by simpa [List.append_assoc] using hm1, hane, hbne, haall, hball⟩
    · exact ⟨[], a, [], b, rest, Or.inl rfl, Or.inl rfl,
        by simpa [List.append_assoc] using hm1, hane, hbne, haall, hball⟩
  · rintro ⟨optS, a, dot, b, r, hoptS, hdot, heq, hane, hbne, haall, hball⟩
    rcases hoptS with rfl | rfl <;> rcases hdot with rfl | rfl
    · exact ⟨r, ("://").toList ++ a ++ b ++ r, by simpa [List.append_assoc] using heq,
        ("://").toList ++ a ++ b ++ r, Or.inr rfl,
        a ++ b ++ r, by simp [List.append_assoc],
        b ++ r, ⟨a, by simp [List.append_assoc], hane, haall⟩,
        b ++ r, Or.inr rfl, b, rfl, hbne, hball⟩
    · exact ⟨r, ("://").toList ++ a ++ '.' :: (b ++ r),
        by simpa [List.append_assoc] using heq,
        ("://").toList ++ a ++ '.' :: (b ++ r), Or.inr rfl,
        a ++ '.' :: (b ++ r), by simp [List.append_assoc],
        '.' :: (b ++ r), ⟨a, by simp [List.append_assoc], hane, haall⟩,
        b ++ r, Or.inl rfl, b, rfl, hbne, hball⟩
    · exact ⟨r, ['s'] ++ ("://").toList ++ a ++ b ++ r,
        by simpa [List.append_assoc] using heq,
        ("://").toList ++ a ++ b ++ r, Or.inl rfl,
        a ++ b ++ r, by simp [List.append_assoc],
        b ++ r, ⟨a, by simp [List.append_assoc], hane, haall⟩,
        b ++ r, Or.inr rfl, b, rfl, hbne, hball⟩
    · exact ⟨r, ['s'] ++ ("://").toList ++ a ++ '.' :: (b ++ r),
        by simpa [List.append_assoc] using heq,
        ("://").toList ++ a ++ '.' :: (b ++ r), Or.inl rfl,
        a ++ '.' :: (b ++ r), by simp [List.append_assoc],
        '.' :: (b ++ r), ⟨a, by simp [List.append_assoc], hane, haall⟩,
        b ++ r, Or.inl rfl, b, rfl, hbne, hball⟩

lemma pmURL_iff (s : String) :
    Rx.rtest urlPmTop s = true ↔ AmendedPmURL s := by
  have hsL : ("s" : String).toList = ['s'] := rfl
  show (Rx.matchedAt _ s.toList || s.toList.tails.any fun t => Rx.matchedAt _ t) = true ↔ _
  rw [Bool.or_eq_true, Rx.matchedAt_iff, List.any_eq_true]
  constructor
  · rintro (⟨rest, hrest⟩ | ⟨t, htails, hmt⟩)
    · left
      simp only [Rx.mem_mrem_seq, Rx.mem_mrem_lit, Rx.mem_mrem_optLit, Rx.mem_mrem_clsPlus,
        hsL] at hrest
      obtain ⟨m1, hm1, m2, hopt, m3, hm3, m4, ⟨a, ha, hane, haall⟩, m5, hm5, b, hb, hbne,
        hball⟩ := hrest
      subst hm3
      subst ha
      subst hm5
      subst hb
      rcases hopt with hs | hs <;> subst hs
      · exact ⟨['s'], a, b, rest, Or.inr rfl,
          by simpa [List.append_assoc] using hm1, hane, hbne, haall, hball⟩
      · exact ⟨[], a, b, rest, Or.inl rfl,
          by simpa [List.append_assoc] using hm1, hane, hbne, haall, hball⟩
    · right
      rw [Rx.matchedAt_iff] at hmt
      obtain ⟨u, hu⟩ := (List.mem_tails _ _).mp htails
      simp only [Rx.mem_mrem_seq, Rx.mem_mrem_lit, Rx.mem_mrem_optLit, hsL] at hmt
      obtain ⟨rest, m1, hm1, m2, hopt, hm2⟩ := hmt
      subst hm2
      rcases hopt with hs | hs <;> subst hs
      · exact ⟨u, ['s'], rest, Or.inr rfl,
          by rw [← hu, hm1]; simp [List.append_assoc]⟩
      · exact ⟨u, [], rest, Or.inl rfl,
          by rw [← hu, hm1]; simp [List.append_assoc]⟩
  · rintro (⟨optS, a, b, r, hoptS, heq, hane, hbne, haall, hball⟩ |
      ⟨u, optS, r, hoptS, heq⟩)
    · left
      simp only [Rx.mem_mrem_seq, Rx.mem_mrem_lit, Rx.mem_mrem_optLit, Rx.mem_mrem_clsPlus,
        hsL]
      rcases hoptS with rfl | rfl
      · exact ⟨r, ("://").toList ++ a ++ '.' :: (b ++ r),
          by simpa [List.append_assoc] using heq,
          ("://").toList ++ a ++ '.' :: (b ++ r), Or.inr rfl,
          a ++ '.' :: (b ++ r), by simp [List.append_assoc],
          '.' :: (b ++ r), ⟨a, by simp [List.append_assoc], hane, haall⟩,
          b ++ r, rfl, b, rfl, hbne, hball⟩
      · exact ⟨r, ['s'] ++ ("://").toList ++ a ++ '.' :: (b ++ r),
          by simpa [List.append_assoc] using heq,
          ("://").toList ++ a ++ '.' :: (b ++ r), Or.inl rfl,
          a ++ '.' :: (b ++ r), by simp [List.append_assoc],
          '.' :: (b ++ r), ⟨a, by simp [List.append_assoc], hane, haall⟩,
          b ++ r, rfl, b, rfl, hbne, hball⟩
    · right
      refine ⟨("http").toList ++ optS ++ ("://localhost").toList ++ r, ?_, ?_⟩
      · rw [List.mem_tails]
        exact ⟨u, by simpa [List.append_assoc] using heq.symm⟩
      · rw [Rx.matchedAt_iff]
        simp only [Rx.mem_mrem_seq, Rx.mem_mrem_lit, Rx.mem_mrem_optLit, hsL]
        rcases hoptS with rfl | rfl
        · exact ⟨r, ("://localhost").toList ++ r, by simp,
            ("://localhost").toList ++ r, Or.inr rfl, rfl⟩
        · exact ⟨r, ['s'] ++ ("://localhost").toList ++ r, by simp,
            ("://localhost").toList ++ r, Or.inl rfl, rfl⟩

/-- C10 (amended): the `Commontests.js` pattern matches exactly the strings
beginning with `http://` or `https://` followed by one-or-more host characters
`[0-9a-zA-Z-]`, an *optional* dot, and one-or-more host characters (the dot is
not required); the Postman pattern matches exactly the strings beginning with
`http(s)://` followed by host characters, a mandatory dot and host characters,
or *containing* `http(s)://localhost` at any position (that alternative is
unanchored).  Neither match set coincides with "begins with the scheme and a
dotted host, or begins with the scheme and the literal host localhost". -/
theorem claim_C10 (s : String) :
    (Rx.rtest urlChakramTop s = true ↔ AmendedChakramURL s) ∧
    (Rx.rtest urlPmTop s = true ↔ AmendedPmURL s) :=
  ⟨chakramURL_iff s, pmURL_iff s⟩

/-- C10 counterexample: `"http://ab"` (no dot, not localhost) matches the
`Commontests.js` pattern, and `"xhttps://localhost"` (which does not begin
with a scheme) matches the Postman pattern — both refuting the claimed
"begins with scheme + dotted host or localhost" characterization. -/
theorem claim_C10_counterexample :
    Rx.rtest urlChakramTop "http://ab" = true ∧ claimURLModel "http://ab" = false ∧
    Rx.rtest urlPmTop "xhttps://localhost" = true ∧
    claimURLModel "xhttps://localhost" = false :=
  ⟨by decide, by decide, by decide, by decide⟩
